import Mathlib

/-!
Verification of `pkg/release/release.go` (marco-m/taschino).

The repository has two functions:
* `Compare curV latestV` validates both strings as semantic versions and
  returns their ordering together with an optional error message;
* `GitHubLatest` performs an HTTP GET and turns the response (status code
  and JSON body) into a tag string or an error message.

The network call itself is outside a shallow embedding; we embed the pure
response-handling part of `GitHubLatest` as a function of the status code
and the (already parsed) JSON body.  The semver validation and comparison
live in the dependency `golang.org/x/mod/semver`, whose source is not part
of this repository; those definitions are modelled from the spec, as their
doc comments state.
-/

/-- A digit span: splits a character list into its maximal leading run of
decimal digits and the remainder. -/
def spanDigits : List Char → List Char × List Char
  | [] => ([], [])
  | c :: cs =>
    if c.isDigit then
      let p := spanDigits cs
      (c :: p.1, p.2)
    else ([], c :: cs)

/-- Numeric value of a digit string (most significant digit first). -/
def natOfDigits (ds : List Char) : Nat :=
  ds.foldl (fun n c => 10 * n + (c.toNat - 48)) 0

/-- Parse a semver numeric identifier: a nonempty run of digits with no
leading zero.  Returns the value and the rest of the input. -/
def parseNum (cs : List Char) : Option (Nat × List Char) :=
  let p := spanDigits cs
  if p.1.isEmpty then none
  else if p.1.head? = some '0' ∧ p.1.length ≠ 1 then none
  else some (natOfDigits p.1, p.2)

/-- Expect a literal dot; consume it. -/
def expectDot (cs : List Char) : Option (List Char) :=
  match cs with
  | [] => none
  | c :: rest => if c = '.' then some rest else none

/-- Strip one optional leading character v. -/
def stripV (cs : List Char) : List Char :=
  match cs with
  | [] => []
  | c :: rest => if c = 'v' then rest else c :: rest

/-- Character allowed inside prerelease/build identifiers. -/
def isIdentChar (c : Char) : Bool :=
  c.isDigit || c.isAlpha || c = '-'

/-- Split a character list on dots. -/
def splitDot : List Char → List (List Char)
  | [] => [[]]
  | c :: cs =>
    let r := splitDot cs
    if c = '.' then [] :: r
    else
      match r with
      | [] => [[c]]
      | h :: t => (c :: h) :: t

/-- A valid prerelease identifier: nonempty, alphanumeric-or-hyphen, and a
purely numeric identifier has no leading zero. -/
def validPreIdent (cs : List Char) : Bool :=
  !cs.isEmpty && cs.all isIdentChar &&
    (if cs.all Char.isDigit then decide (cs.length = 1) || !(cs.head? = some '0') else true)

/-- A valid build identifier: nonempty, alphanumeric-or-hyphen. -/
def validBuildIdent (cs : List Char) : Bool :=
  !cs.isEmpty && cs.all isIdentChar

/-- Take characters up to the next plus sign (start of build metadata). -/
def spanNotPlus : List Char → List Char × List Char
  | [] => ([], [])
  | c :: cs =>
    if c = '+' then ([], c :: cs)
    else
      let p := spanNotPlus cs
      (c :: p.1, p.2)

/-- Parse an optional prerelease part introduced by a hyphen. -/
def parsePre (cs : List Char) : Option (Option (List (List Char)) × List Char) :=
  match cs with
  | [] => some (none, [])
  | c :: rest =>
    if c = '-' then
      let p := spanNotPlus rest
      let ids := splitDot p.1
      if ids.all validPreIdent then some (some ids, p.2) else none
    else some (none, c :: rest)

/-- Parse an optional build-metadata part introduced by a plus sign; it
extends to the end of the string. -/
def parseBuild (cs : List Char) : Option (Option (List (List Char)) × List Char) :=
  match cs with
  | [] => some (none, [])
  | c :: rest =>
    if c = '+' then
      let ids := splitDot rest
      if ids.all validBuildIdent then some (some ids, []) else none
    else some (none, c :: rest)

/-- A parsed semantic version: numeric major.minor.patch triple, optional
prerelease identifiers, optional build-metadata identifiers. -/
structure SemVer where
  major : Nat
  minor : Nat
  patch : Nat
  prerelease : Option (List (List Char))
  build : Option (List (List Char))
  deriving DecidableEq

/-- Parse the body of a version string (after the optional v prefix):
major dot minor dot patch, optional prerelease, optional build metadata,
nothing left over. -/
def parseCore (cs : List Char) : Option SemVer :=
  match parseNum cs with
  | none => none
  | some (maj, r1) =>
    match expectDot r1 with
    | none => none
    | some r2 =>
      match parseNum r2 with
      | none => none
      | some (minr, r3) =>
        match expectDot r3 with
        | none => none
        | some r4 =>
          match parseNum r4 with
          | none => none
          | some (pat, r5) =>
            match parsePre r5 with
            | none => none
            | some (pre, r6) =>
              match parseBuild r6 with
              | none => none
              | some (bld, r7) =>
                if r7.isEmpty then some ⟨maj, minr, pat, pre, bld⟩ else none

/-- Modelled from the spec: the semver syntax accepted by the dependency
`golang.org/x/mod/semver` used at release.go lines 62 and 66, whose source
is not in this repository.  The spec describes it as: optional v prefix,
major.minor.patch, optional prerelease/build metadata. -/
def semverParse (s : String) : Option SemVer :=
  parseCore (stripV s.data)

/-- Modelled from the spec: semver validation (`semver.IsValid` in the Go
source); a string is valid when it parses. -/
def IsValid (s : String) : Bool :=
  (semverParse s).isSome

/-- Three-way comparison of naturals as the Go comparison reports it. -/
def cmpNat (a b : Nat) : Int :=
  if a < b then -1 else if b < a then 1 else 0

/-- Lexicographic (code-point) comparison of character lists. -/
def cmpLex : List Char → List Char → Int
  | [], [] => 0
  | [], _ :: _ => -1
  | _ :: _, [] => 1
  | a :: as, b :: bs => if a = b then cmpLex as bs else cmpNat a.toNat b.toNat

/-- Compare two prerelease identifiers: numeric identifiers compare
numerically and are lower than alphanumeric ones, which compare
lexically. -/
def cmpIdent (a b : List Char) : Int :=
  if a.all Char.isDigit then
    if b.all Char.isDigit then cmpNat (natOfDigits a) (natOfDigits b)
    else -1
  else
    if b.all Char.isDigit then 1
    else cmpLex a b

/-- Compare dot-separated identifier lists; a strict prefix is lower. -/
def cmpIdents : List (List Char) → List (List Char) → Int
  | [], [] => 0
  | [], _ :: _ => -1
  | _ :: _, [] => 1
  | a :: as, b :: bs =>
    let c := cmpIdent a b
    if c = 0 then cmpIdents as bs else c

/-- Compare optional prerelease parts: a version with a prerelease sorts
strictly before the corresponding release. -/
def cmpPre : Option (List (List Char)) → Option (List (List Char)) → Int
  | none, none => 0
  | some _, none => -1
  | none, some _ => 1
  | some a, some b => cmpIdents a b

/-- Modelled from the spec: standard semantic-versioning precedence on
parsed versions — major, then minor, then patch numerically, then the
prerelease rule; build metadata is ignored. -/
def cmpSemVer (p q : SemVer) : Int :=
  if p.major ≠ q.major then cmpNat p.major q.major
  else if p.minor ≠ q.minor then cmpNat p.minor q.minor
  else if p.patch ≠ q.patch then cmpNat p.patch q.patch
  else cmpPre p.prerelease q.prerelease

/-- Modelled from the spec: `semver.Compare` of the Go dependency, applied
at release.go line 70 after both inputs were validated. -/
def semverCompare (s t : String) : Int :=
  match semverParse s, semverParse t with
  | some p, some q => cmpSemVer p q
  | _, _ => 0

/-- `Compare` from release.go lines 61-71: validate the installed version,
then the latest version, and on success return the semver ordering.  The
Go pair (int, error) is embedded as `Int × Option String` where the second
component is the error message, `none` meaning a nil error. -/
def Compare (curV : String) (latestV : String) : Int × Option String :=
  if !(IsValid curV) then
    (0, some ("installed version is not a valid semver: " ++ curV))
  else if !(IsValid latestV) then
    (0, some ("latest version is not a valid semver: " ++ latestV))
  else (semverCompare curV latestV, none)

/-- JSON values, for the response body that `GitHubLatest` decodes. -/
inductive Json where
  | null : Json
  | bool : Bool → Json
  | num : Int → Json
  | str : String → Json
  | arr : List Json → Json
  | obj : List (String × Json) → Json

/-- First binding of a field name in a JSON object. -/
def lookupField (name : String) : List (String × Json) → Option Json
  | [] => none
  | (k, v) :: rest => if k = name then some v else lookupField name rest

/-- Modelled from the spec: decoding the response body into the anonymous
Go struct with the single field TagName (JSON key tag_name) at release.go
lines 39-47; decoding is done by the standard library package
encoding/json, whose source is not in this repository.  An absent field or
a JSON null leaves the field at its zero value (the empty string); a
non-object body or a non-string field value is a decode error (`none`). -/
def decodeTagName : Json → Option String
  | Json.obj fields =>
    match lookupField "tag_name" fields with
    | none => some ""
    | some (Json.str s) => some s
    | some Json.null => some ""
    | some _ => none
  | Json.null => some ""
  | _ => none

/-- The URL built at release.go lines 19-20. -/
def apiUrl (owner : String) (repo : String) : String :=
  "https://api.github.com/repos/" ++ owner ++ "/" ++ repo ++ "/releases/latest"

/-- Response handling of `GitHubLatest`, release.go lines 35-53: a 404
status is reported as no release found, before any decoding; otherwise the
body is decoded and a missing or empty tag_name is a parse error.  The Go
pair (string, error) is embedded as `String × Option String`. -/
def gitHubLatestResponse (api_url : String) (statusCode : Nat) (body : Json) :
    String × Option String :=
  if statusCode = 404 then
    ("", some ("no release found at " ++ api_url))
  else
    match decodeTagName body with
    | none => ("", some "parsing JSON response: decode error")
    | some tagName =>
      if tagName = "" then
        ("", some "parsing JSON response: missing 'field tag_name'")
      else (tagName, none)

/-- An error message is a parse error when it carries the parse-error text
of release.go lines 46 and 50. -/
def isParseErrorMsg (m : String) : Bool :=
  List.isPrefixOf "parsing JSON response".data m.data

/-- Does a string start with the character v? -/
def startsWithV (s : String) : Bool :=
  match s.data with
  | c :: _ => c = 'v'
  | [] => false

/-! ### Helper lemmas -/

theorem data_append (a b : String) : (a ++ b).data = a.data ++ b.data := rfl

theorem cmpNat_range (a b : Nat) : cmpNat a b = -1 ∨ cmpNat a b = 0 ∨ cmpNat a b = 1 := by
  unfold cmpNat
  split
  · exact Or.inl rfl
  · split
    · exact Or.inr (Or.inr rfl)
    · exact Or.inr (Or.inl rfl)

theorem cmpLex_range (a b : List Char) : cmpLex a b = -1 ∨ cmpLex a b = 0 ∨ cmpLex a b = 1 := by
  induction a generalizing b with
  | nil =>
    cases b with
    | nil => exact Or.inr (Or.inl rfl)
    | cons y ys => exact Or.inl rfl
  | cons x xs ih =>
    cases b with
    | nil => exact Or.inr (Or.inr rfl)
    | cons y ys =>
      simp only [cmpLex]
      split
      · exact ih ys
      · exact cmpNat_range _ _

theorem cmpIdent_range (a b : List Char) : cmpIdent a b = -1 ∨ cmpIdent a b = 0 ∨ cmpIdent a b = 1 := by
  unfold cmpIdent
  split
  · split
    · exact cmpNat_range _ _
    · exact Or.inl rfl
  · split
    · exact Or.inr (Or.inr rfl)
    · exact cmpLex_range _ _

theorem cmpIdents_range (a b : List (List Char)) :
    cmpIdents a b = -1 ∨ cmpIdents a b = 0 ∨ cmpIdents a b = 1 := by
  induction a generalizing b with
  | nil =>
    cases b with
    | nil => exact Or.inr (Or.inl rfl)
    | cons y ys => exact Or.inl rfl
  | cons x xs ih =>
    cases b with
    | nil => exact Or.inr (Or.inr rfl)
    | cons y ys =>
      simp only [cmpIdents]
      split
      · exact ih ys
      · exact cmpIdent_range x y

theorem cmpPre_range (a b : Option (List (List Char))) :
    cmpPre a b = -1 ∨ cmpPre a b = 0 ∨ cmpPre a b = 1 := by
  cases a with
  | none =>
    cases b with
    | none => exact Or.inr (Or.inl rfl)
    | some l => exact Or.inr (Or.inr rfl)
  | some l =>
    cases b with
    | none => exact Or.inl rfl
    | some m => exact cmpIdents_range l m

theorem cmpSemVer_range (p q : SemVer) :
    cmpSemVer p q = -1 ∨ cmpSemVer p q = 0 ∨ cmpSemVer p q = 1 := by
  unfold cmpSemVer
  split
  · exact cmpNat_range _ _
  · split
    · exact cmpNat_range _ _
    · split
      · exact cmpNat_range _ _
      · exact cmpPre_range _ _

theorem spanDigits_all (cs : List Char) (h : cs.all Char.isDigit = true) :
    spanDigits cs = (cs, []) := by
  induction cs with
  | nil => rfl
  | cons c rest ih =>
    simp only [List.all_cons, Bool.and_eq_true] at h
    simp [spanDigits, h.1, ih h.2]

theorem spanDigits_append (cs : List Char) (y : Char) (ys : List Char)
    (h : cs.all Char.isDigit = true) (hy : y.isDigit = false) :
    spanDigits (cs ++ y :: ys) = (cs, y :: ys) := by
  induction cs with
  | nil => simp [spanDigits, hy]
  | cons c rest ih =>
    simp only [List.all_cons, Bool.and_eq_true] at h
    simp [spanDigits, h.1, ih h.2]

theorem parseNum_digits (cs : List Char) (hne : cs ≠ [])
    (hd : cs.all Char.isDigit = true) :
    parseNum cs = none ∨ parseNum cs = some (natOfDigits cs, []) := by
  have hspan : spanDigits cs = (cs, []) := spanDigits_all cs hd
  have hie : cs.isEmpty = false := by
    cases cs with
    | nil => exact absurd rfl hne
    | cons c rest => rfl
  by_cases hz : cs.head? = some '0' ∧ cs.length ≠ 1
  · left
    simp [parseNum, hspan, hie, hz]
  · right
    simp [parseNum, hspan, hie, hz]

theorem parseNum_digits_dot (cs : List Char) (ys : List Char) (hne : cs ≠ [])
    (hd : cs.all Char.isDigit = true) :
    parseNum (cs ++ '.' :: ys) = none ∨
      parseNum (cs ++ '.' :: ys) = some (natOfDigits cs, '.' :: ys) := by
  have hspan : spanDigits (cs ++ '.' :: ys) = (cs, '.' :: ys) :=
    spanDigits_append cs '.' ys hd (by decide)
  have hie : (cs ++ '.' :: ys).isEmpty = false := by
    cases cs with
    | nil => rfl
    | cons c rest => rfl
  by_cases hz : cs.head? = some '0' ∧ cs.length ≠ 1
  · left
    simp [parseNum, hspan, hie, hz, hne]
  · right
    simp [parseNum, hspan, hie, hz, hne]

theorem parseCore_digits (cs : List Char) (hne : cs ≠ [])
    (hd : cs.all Char.isDigit = true) : parseCore cs = none := by
  rcases parseNum_digits cs hne hd with h | h
  · simp [parseCore, h]
  · simp [parseCore, h, expectDot]

theorem parseCore_two (s₁ s₂ : List Char) (h1 : s₁ ≠ []) (h2 : s₂ ≠ [])
    (hd1 : s₁.all Char.isDigit = true) (hd2 : s₂.all Char.isDigit = true) :
    parseCore (s₁ ++ '.' :: s₂) = none := by
  rcases parseNum_digits_dot s₁ s₂ h1 hd1 with h | h
  · simp [parseCore, h]
  · simp only [parseCore, h]
    have he : expectDot ('.' :: s₂) = some s₂ := rfl
    rw [he]
    rcases parseNum_digits s₂ h2 hd2 with h' | h'
    · simp [h']
    · simp [h', expectDot]

theorem stripV_v (cs : List Char) : stripV ('v' :: cs) = cs := by
  simp [stripV]

theorem stripV_not_v (s : String) (hs : startsWithV s = false) :
    stripV s.data = s.data := by
  unfold startsWithV at hs
  unfold stripV
  cases hd : s.data with
  | nil => rfl
  | cons c rest =>
    rw [hd] at hs
    have hcv : ¬c = 'v' := by simpa using hs
    simp [hcv]

theorem isValid_v_invariant (s : String) (hs : startsWithV s = false) :
    IsValid ("v" ++ s) = IsValid s := by
  have h1 : ("v" ++ s).data = 'v' :: s.data := rfl
  unfold IsValid semverParse
  rw [h1, stripV_v, stripV_not_v s hs]

theorem isValid_no_minor_patch (s : String) (h1 : s.data ≠ [])
    (h2 : s.data.all Char.isDigit = true) : IsValid ("v" ++ s) = false := by
  have hd : ("v" ++ s).data = 'v' :: s.data := rfl
  unfold IsValid semverParse
  rw [hd, stripV_v, parseCore_digits s.data h1 h2]
  rfl

theorem isValid_no_patch (s₁ s₂ : String) (h1 : s₁.data ≠ []) (h2 : s₂.data ≠ [])
    (hd1 : s₁.data.all Char.isDigit = true) (hd2 : s₂.data.all Char.isDigit = true) :
    IsValid ("v" ++ s₁ ++ "." ++ s₂) = false := by
  have hd : ("v" ++ s₁ ++ "." ++ s₂).data = 'v' :: (s₁.data ++ '.' :: s₂.data) := by
    simp [data_append]
  unfold IsValid semverParse
  rw [hd, stripV_v, parseCore_two s₁.data s₂.data h1 h2 hd1 hd2]
  rfl

/-! ### Claim theorems -/

/-- C1: for every pair of version strings that both pass semver validation,
`Compare` succeeds and returns an integer in the set of -1, 0 and +1,
determined by standard semantic-versioning precedence: major, then minor,
then patch compared numerically; a prerelease version orders strictly
before the corresponding release version; build metadata has no effect on
the result. -/
theorem compare_semver_precedence (s t : String) (p q : SemVer)
    (hp : semverParse s = some p) (hq : semverParse t = some q) :
    (Compare s t).2 = none ∧
    (Compare s t).1 = cmpSemVer p q ∧
    ((Compare s t).1 = -1 ∨ (Compare s t).1 = 0 ∨ (Compare s t).1 = 1) ∧
    (p.major ≠ q.major → (Compare s t).1 = cmpNat p.major q.major) ∧
    (p.major = q.major → p.minor ≠ q.minor → (Compare s t).1 = cmpNat p.minor q.minor) ∧
    (p.major = q.major → p.minor = q.minor → p.patch ≠ q.patch →
      (Compare s t).1 = cmpNat p.patch q.patch) ∧
    (p.major = q.major → p.minor = q.minor → p.patch = q.patch →
      p.prerelease.isSome = true → q.prerelease = none → (Compare s t).1 = -1) ∧
    (p.major = q.major → p.minor = q.minor → p.patch = q.patch →
      p.prerelease = none → q.prerelease.isSome = true → (Compare s t).1 = 1) ∧
    cmpSemVer p q = cmpSemVer { p with build := none } { q with build := none } := by
  have hvs : IsValid s = true := by simp [IsValid, hp]
  have hvt : IsValid t = true := by simp [IsValid, hq]
  have hC : Compare s t = (cmpSemVer p q, none) := by
    simp [Compare, hvs, hvt, semverCompare, hp, hq]
  rw [hC]
  refine ⟨rfl, rfl, cmpSemVer_range p q, ?_, ?_, ?_, ?_, ?_, ?_⟩
  · intro h
    simp [cmpSemVer, h]
  · intro h1 h2
    simp [cmpSemVer, h1, h2]
  · intro h1 h2 h3
    simp [cmpSemVer, h1, h2, h3]
  · intro h1 h2 h3 h4 h5
    obtain ⟨l, hl⟩ := Option.isSome_iff_exists.mp h4
    simp [cmpSemVer, h1, h2, h3, hl, h5, cmpPre]
  · intro h1 h2 h3 h4 h5
    obtain ⟨l, hl⟩ := Option.isSome_iff_exists.mp h5
    simp [cmpSemVer, h1, h2, h3, h4, hl, cmpPre]
  · cases p
    cases q
    simp [cmpSemVer]

/-- Witness for C1 at the concrete pair v1.2.3-alpha and v1.2.3. -/
theorem compare_semver_precedence_witness :
    semverParse "v1.2.3-alpha" = some ⟨1, 2, 3, some [['a', 'l', 'p', 'h', 'a']], none⟩ ∧
    semverParse "v1.2.3" = some ⟨1, 2, 3, none, none⟩ ∧
    (Compare "v1.2.3-alpha" "v1.2.3").2 = none ∧
    (Compare "v1.2.3-alpha" "v1.2.3").1 = -1 := by
  have h := compare_semver_precedence "v1.2.3-alpha" "v1.2.3"
    ⟨1, 2, 3, some [['a', 'l', 'p', 'h', 'a']], none⟩ ⟨1, 2, 3, none, none⟩ rfl rfl
  exact ⟨rfl, rfl, h.1, h.2.2.2.2.2.2.1 rfl rfl rfl rfl rfl⟩

/-- C2: validation accepts semver syntax with an optional v prefix and a
full major.minor.patch triple with optional prerelease/build metadata;
prefixing a bare version string with v does not change validity, and a
string missing the minor or the patch component fails validation. -/
theorem isValid_semver_syntax :
    (∀ s : String, startsWithV s = false → IsValid ("v" ++ s) = IsValid s) ∧
    (∀ s : String, s.data ≠ [] → s.data.all Char.isDigit = true →
      IsValid ("v" ++ s) = false) ∧
    (∀ s₁ s₂ : String, s₁.data ≠ [] → s₂.data ≠ [] →
      s₁.data.all Char.isDigit = true → s₂.data.all Char.isDigit = true →
      IsValid ("v" ++ s₁ ++ "." ++ s₂) = false) ∧
    IsValid "v1.2.3" = true ∧
    IsValid "1.2.3" = true ∧
    IsValid "v1.2.3-rc.1+build.7" = true ∧
    IsValid "v1.2.3+meta" = true ∧
    IsValid "" = false ∧
    IsValid "not-a-version" = false := by
  refine ⟨isValid_v_invariant, isValid_no_minor_patch, isValid_no_patch, ?_, ?_, ?_, ?_, ?_, ?_⟩
    <;> decide

/-- Witness for C2 at concrete strings. -/
theorem isValid_semver_syntax_witness :
    startsWithV "1.2.3" = false ∧
    IsValid ("v" ++ "1.2.3") = IsValid "1.2.3" ∧
    IsValid ("v" ++ "1") = false ∧
    IsValid ("v" ++ "1" ++ "." ++ "2") = false :=
  ⟨rfl, isValid_semver_syntax.1 "1.2.3" rfl,
   isValid_semver_syntax.2.1 "1" (by decide) rfl,
   isValid_semver_syntax.2.2.1 "1" "2" (by decide) (by decide) rfl rfl⟩

/-- C3: `Compare` on the spec's three example pairs returns 0, -1 and +1
respectively, each with no error. -/
theorem compare_examples :
    Compare "v1.2.3" "v1.2.3" = (0, none) ∧
    Compare "v1.2.3" "v1.3.0" = (-1, none) ∧
    Compare "v2.0.0" "v1.9.9" = (1, none) := by
  refine ⟨?_, ?_, ?_⟩ <;> decide

/-- C4: whenever at least one input fails semver validation, `Compare`
returns an error naming which of the two inputs (installed or latest)
failed validation. -/
theorem compare_invalid_named (curV latestV : String)
    (h : IsValid curV = false ∨ IsValid latestV = false) :
    ∃ msg, (Compare curV latestV).2 = some msg ∧
      ((IsValid curV = false ∧
        msg = "installed version is not a valid semver: " ++ curV) ∨
       (IsValid curV = true ∧ IsValid latestV = false ∧
        msg = "latest version is not a valid semver: " ++ latestV)) := by
  by_cases hc : IsValid curV = false
  · refine ⟨"installed version is not a valid semver: " ++ curV, ?_, Or.inl ⟨hc, rfl⟩⟩
    simp [Compare, hc]
  · have hct : IsValid curV = true := by
      cases hb : IsValid curV with
      | false => exact absurd hb hc
      | true => rfl
    have hl : IsValid latestV = false := by
      rcases h with h | h
      · exact absurd h hc
      · exact h
    refine ⟨"latest version is not a valid semver: " ++ latestV, ?_, Or.inr ⟨hct, hl, rfl⟩⟩
    simp [Compare, hct, hl]

/-- Witness for C4: Compare("not-a-version","v1.0.0") errs naming the
installed (first) argument. -/
theorem compare_invalid_named_witness :
    IsValid "not-a-version" = false ∧
    ∃ msg, (Compare "not-a-version" "v1.0.0").2 = some msg ∧
      ((IsValid "not-a-version" = false ∧
        msg = "installed version is not a valid semver: " ++ "not-a-version") ∨
       (IsValid "not-a-version" = true ∧ IsValid "v1.0.0" = false ∧
        msg = "latest version is not a valid semver: " ++ "v1.0.0")) :=
  ⟨rfl, compare_invalid_named "not-a-version" "v1.0.0" (Or.inl rfl)⟩

/-- C10: whenever `Compare` returns an error, the ordering value returned
alongside it is 0; the installed version is validated first, so when it is
invalid (in particular when both inputs are invalid) the error names the
installed version. -/
theorem compare_error_order_zero (curV latestV : String) :
    ((Compare curV latestV).2.isSome = true → (Compare curV latestV).1 = 0) ∧
    (IsValid curV = false →
      Compare curV latestV =
        (0, some ("installed version is not a valid semver: " ++ curV))) := by
  cases h1 : IsValid curV with
  | false =>
    constructor
    · intro _
      simp [Compare, h1]
    · intro _
      simp [Compare, h1]
  | true =>
    constructor
    · intro h
      cases h2 : IsValid latestV with
      | false => simp [Compare, h1, h2]
      | true => simp [Compare, h1, h2] at h
    · intro hfalse
      exact absurd hfalse (by decide)

/-- Witness for C10 at a pair of two invalid versions. -/
theorem compare_error_order_zero_witness :
    (Compare "bad" "worse").2.isSome = true ∧
    (Compare "bad" "worse").1 = 0 ∧
    Compare "bad" "worse" = (0, some ("installed version is not a valid semver: " ++ "bad")) :=
  ⟨by decide, (compare_error_order_zero "bad" "worse").1 (by decide),
   (compare_error_order_zero "bad" "worse").2 (by decide)⟩

/-- C5 counterexample: a response with status 404 whose well-formed JSON
body carries a non-empty string field tag_name does not make
`GitHubLatest` return that tag with no error — the 404 check comes first. -/
theorem githubLatest_tag_404_counterexample :
    gitHubLatestResponse (apiUrl "o" "r") 404
      (Json.obj [("tag_name", Json.str "v1.2.3")]) ≠ ("v1.2.3", none) := by
  decide

/-- C5 (amended): for every response whose HTTP status is not 404 and whose
well-formed JSON body contains a non-empty string field tag_name,
`GitHubLatest` returns exactly that string unchanged and no error. -/
theorem githubLatest_tag_verbatim (api_url : String) (status : Nat)
    (fields : List (String × Json)) (tag : String)
    (hstatus : status ≠ 404)
    (hfield : lookupField "tag_name" fields = some (Json.str tag))
    (htag : tag ≠ "") :
    gitHubLatestResponse api_url status (Json.obj fields) = (tag, none) := by
  simp [gitHubLatestResponse, hstatus, decodeTagName, hfield, htag]

/-- Witness for the amended C5 at a concrete 200 response. -/
theorem githubLatest_tag_verbatim_witness :
    (200 : Nat) ≠ 404 ∧
    lookupField "tag_name" [("tag_name", Json.str "v1.2.3")] = some (Json.str "v1.2.3") ∧
    gitHubLatestResponse "u" 200 (Json.obj [("tag_name", Json.str "v1.2.3")]) =
      ("v1.2.3", none) :=
  ⟨by decide, rfl,
   githubLatest_tag_verbatim "u" 200 [("tag_name", Json.str "v1.2.3")] "v1.2.3"
     (by decide) rfl (by decide)⟩

/-- C6 counterexample: a 404 response whose valid JSON body lacks tag_name
is answered with the not-found error, which is not a parse error. -/
theorem githubLatest_missing_tag_404_counterexample :
    (gitHubLatestResponse (apiUrl "o" "r") 404 (Json.obj [])).2 =
      some ("no release found at " ++ apiUrl "o" "r") ∧
    isParseErrorMsg ("no release found at " ++ apiUrl "o" "r") = false := by
  decide

/-- C6 (amended): for every response whose HTTP status is not 404 and whose
valid JSON object body has the tag_name field absent or equal to the empty
string, `GitHubLatest` returns an empty tag and a parse error. -/
theorem githubLatest_missing_tag_parse_error (api_url : String) (status : Nat)
    (fields : List (String × Json))
    (hstatus : status ≠ 404)
    (hfield : lookupField "tag_name" fields = none ∨
              lookupField "tag_name" fields = some (Json.str "")) :
    (gitHubLatestResponse api_url status (Json.obj fields)).1 = "" ∧
    (gitHubLatestResponse api_url status (Json.obj fields)).2 =
      some "parsing JSON response: missing 'field tag_name'" ∧
    isParseErrorMsg "parsing JSON response: missing 'field tag_name'" = true := by
  have hmsg : isParseErrorMsg "parsing JSON response: missing 'field tag_name'" = true := by
    decide
  rcases hfield with h | h
  · exact ⟨by simp [gitHubLatestResponse, hstatus, decodeTagName, h],
      by simp [gitHubLatestResponse, hstatus, decodeTagName, h], hmsg⟩
  · exact ⟨by simp [gitHubLatestResponse, hstatus, decodeTagName, h],
      by simp [gitHubLatestResponse, hstatus, decodeTagName, h], hmsg⟩

/-- Witness for the amended C6 at a concrete 200 response with an empty
JSON object body. -/
theorem githubLatest_missing_tag_parse_error_witness :
    (200 : Nat) ≠ 404 ∧
    lookupField "tag_name" ([] : List (String × Json)) = none ∧
    (gitHubLatestResponse "u" 200 (Json.obj [])).1 = "" ∧
    (gitHubLatestResponse "u" 200 (Json.obj [])).2 =
      some "parsing JSON response: missing 'field tag_name'" :=
  ⟨by decide, rfl,
   (githubLatest_missing_tag_parse_error "u" 200 [] (by decide) (Or.inl rfl)).1,
   (githubLatest_missing_tag_parse_error "u" 200 [] (by decide) (Or.inl rfl)).2.1⟩

/-- C7: every response with HTTP status 404 makes `GitHubLatest` return the
no-release-found error and an empty tag, without looking at the body: the
result is the same for any two bodies. -/
theorem githubLatest_notfound (api_url : String) (body other : Json) :
    gitHubLatestResponse api_url 404 body =
      ("", some ("no release found at " ++ api_url)) ∧
    gitHubLatestResponse api_url 404 body = gitHubLatestResponse api_url 404 other := by
  constructor <;> simp [gitHubLatestResponse]

/-- C9: for every response with a status other than 404 (for example 500 or
403), `GitHubLatest` does not fail based on the status code: the result is
the one of the decode stage — the tag when the body decodes to a non-empty
tag_name, and a parse/missing-field error otherwise. -/
theorem githubLatest_ignores_status (api_url : String) (status : Nat) (body : Json)
    (hstatus : status ≠ 404) :
    gitHubLatestResponse api_url status body = gitHubLatestResponse api_url 200 body ∧
    ((∃ t, decodeTagName body = some t ∧ t ≠ "" ∧
        gitHubLatestResponse api_url status body = (t, none)) ∨
     ((decodeTagName body = none ∨ decodeTagName body = some "") ∧
      (gitHubLatestResponse api_url status body).1 = "" ∧
      ∃ msg, (gitHubLatestResponse api_url status body).2 = some msg ∧
        isParseErrorMsg msg = true)) := by
  have h200 : (200 : Nat) ≠ 404 := by decide
  constructor
  · simp [gitHubLatestResponse, hstatus, h200]
  · cases hdec : decodeTagName body with
    | none =>
      refine Or.inr ⟨Or.inl rfl, ?_, "parsing JSON response: decode error", ?_, by decide⟩
      · simp [gitHubLatestResponse, hstatus, hdec]
      · simp [gitHubLatestResponse, hstatus, hdec]
    | some t =>
      by_cases ht : t = ""
      · subst ht
        refine Or.inr ⟨Or.inr rfl, ?_,
          "parsing JSON response: missing 'field tag_name'", ?_, by decide⟩
        · simp [gitHubLatestResponse, hstatus, hdec]
        · simp [gitHubLatestResponse, hstatus, hdec]
      · exact Or.inl ⟨t, rfl, ht, by simp [gitHubLatestResponse, hstatus, hdec, ht]⟩

/-- Witness for C9 at a concrete 500 response. -/
theorem githubLatest_ignores_status_witness :
    (500 : Nat) ≠ 404 ∧
    gitHubLatestResponse "u" 500 Json.null = gitHubLatestResponse "u" 200 Json.null :=
  ⟨by decide, (githubLatest_ignores_status "u" 500 Json.null (by decide)).1⟩
